import Mathlib

/-!
Verification of the plan lifecycle and safety-gated execution engine of the
ai-sre-agent repository.  The definitions below are a shallow embedding of
the Python sources:

* `src/actions/execute.py` : the `Executor` class (`execute`, `_check_rate_limit`,
  `_check_safety`, `_run_command`, `_rollback`),
* `src/dedup.py`           : the `AlertDeduplicator` class (`fingerprint`, `should_alert`),
* `src/agent.py`           : plan-store operations (`approve_plan`, `reject_plan`,
  `list_plans`, `check_approvals`, `execute_plan`) and the approval handler
  (`_handle_signal_approve`, `_validate_issue_persists`).

Shell commands are modelled by two oracles: `envOk : String → Bool` gives the
success of a command (exit code 0) and `envErr : String → String` its error
text.  Timestamps are natural numbers counting seconds.  A missing or `None`
command string is modelled as the empty string (both are falsy for the
`if command:` test in the source).
-/

/-! ## String helpers (embedding Python substring, startswith, lower, split) -/

/-- Boolean test that the second char list starts with the first. -/
def charsStart : List Char → List Char → Bool
  | [], _ => true
  | _ :: _, [] => false
  | a :: as, b :: bs => a == b && charsStart as bs

/-- Boolean substring containment on char lists: does the second list contain
the first as a contiguous infix?  Mirrors the Python `needle in hay` test. -/
def charsContain (needle : List Char) : List Char → Bool
  | [] => charsStart needle []
  | c :: rest => charsStart needle (c :: rest) || charsContain needle rest

/-- Python `needle in hay` on strings. -/
def strContains (hay needle : String) : Bool := charsContain needle.data hay.data

/-- Python `s.startswith(pre)`. -/
def strStarts (s pre : String) : Bool := charsStart pre.data s.data

/-- Python `s.lower()` (ASCII, which is all the source compares). -/
def strLower (s : String) : String := ⟨s.data.map Char.toLower⟩

/-- Whitespace as recognised by Python `str.split()` on the strings involved. -/
def isWsChar (c : Char) : Bool := c == ' ' || c == '\t' || c == '\n' || c == '\r'

/-- Accumulator worker for `pyWords`. -/
def wordsAux : List Char → List Char → List String
  | [], acc => if acc.isEmpty then [] else [⟨acc.reverse⟩]
  | c :: rest, acc =>
    if isWsChar c then
      if acc.isEmpty then wordsAux rest [] else ⟨acc.reverse⟩ :: wordsAux rest []
    else wordsAux rest (c :: acc)

/-- Python `s.split()` with no separator: split on whitespace, dropping empties. -/
def pyWords (s : String) : List String := wordsAux s.data []

/-! ## Data model: plans (src/agent.py, src/actions/execute.py) -/

/-- One entry of the `plan` list of a plan dict (`step`, `action`, `command`,
`timeout_seconds`).  An absent or `None` command is the empty string. -/
structure Step where
  stepNum : Nat
  action : String
  command : String
  timeoutSeconds : Nat
deriving Repr, DecidableEq

/-- A remediation plan as stored by the agent (the fields the lifecycle
reads: identity, status, creation time, evidence, and the command lists the
executor consumes). -/
structure Plan where
  planId : String
  status : String
  createdAt : Nat
  evidence : List String
  prechecks : List String
  steps : List Step
  postchecks : List String
  rollback : List String
  approvedAt : Option Nat
  rejectedAt : Option Nat
  rejectionReason : Option String
  executedAt : Option Nat
deriving Repr, DecidableEq


/-! ## Safety gate and command executor (src/actions/execute.py) -/

/-- Executor configuration: `max_auto_fixes_per_hour` (default 3) and the
`never_restart` protected-container names. -/
structure ExecCfg where
  maxFixesPerHour : Nat
  neverRestart : List String
deriving Repr, DecidableEq

/-- Which phase of `execute` ran a command. -/
inductive CmdKind where
  | precheck
  | step
  | postcheck
deriving Repr, DecidableEq

/-- A command actually handed to `_run_command`, tagged with its phase. -/
structure RanCmd where
  kind : CmdKind
  cmd : String
deriving Repr, DecidableEq

/-- Observable outcome of one `Executor.execute` call: the returned result
fields the claims inspect (`success`, `error`), the commands actually run in
order, how many times `_rollback` was invoked, and the rate-limit journal
(`execution_history`) after the call. -/
structure ExecOutcome where
  success : Bool
  error : Option String
  ran : List RanCmd
  rollbackCount : Nat
  historyAfter : List Nat
deriving Repr, DecidableEq

/-- The pruning step of `_check_rate_limit`: keep journal entries with
`t.timestamp() > now - 3600`, written without truncated subtraction. -/
def pruneHistory (now : Nat) (hist : List Nat) : List Nat :=
  hist.filter (fun t => now < t + 3600)

/-- The fixed deny-list `dangerous_patterns` of `_check_safety`. -/
def dangerousPatterns : List String :=
  ["rm -rf /", "rm -rf /*", "mkfs", "> /dev/", "dd if=", ":()\x7b:|:&\x7d;:", "chmod -R 777 /"]

/-- Per-step body of `_check_safety`: first the protected-container test
(container name in command together with `restart` or `stop`), then the
deny-list scan.  Returns the reason when the step is rejected. -/
def stepSafety (neverRestart : List String) (cmd : String) : Option String :=
  match neverRestart.find? (fun c =>
      strContains cmd c && (strContains cmd "restart" || strContains cmd "stop")) with
  | some c => some ("Command targets protected container: " ++ c)
  | none =>
    match dangerousPatterns.find? (fun p => strContains cmd p) with
    | some p => some ("Dangerous command pattern detected: " ++ p)
    | none => none

/-- `_check_safety` over the step list of the plan: the first step either
check rejects yields the reason; prechecks, postchecks and rollback entries
are never inspected. -/
def checkSafety (neverRestart : List String) : List Step → Option String
  | [] => none
  | s :: rest =>
    match stepSafety neverRestart s.command with
    | some r => some r
    | none => checkSafety neverRestart rest

/-- The precheck loop of `execute`: run prechecks in order, stopping at the
first failure.  Returns the commands run (the failing one included, as the
source appends its entry before returning) and the first failing command. -/
def runPrechecks (envOk : String → Bool) : List String → List RanCmd × Option String
  | [] => ([], none)
  | c :: rest =>
    if envOk c then
      let o := runPrechecks envOk rest
      (⟨CmdKind.precheck, c⟩ :: o.1, o.2)
    else ([⟨CmdKind.precheck, c⟩], some c)

/-- Result of the step loop of `execute`. -/
structure StepsOut where
  ran : List RanCmd
  success : Bool
  error : Option String
deriving Repr, DecidableEq

/-- The step loop of `execute`: steps run strictly in declared order; a step
with a falsy command runs nothing; the first failing command sets the error
message, stops the loop and (in `execute`) triggers `_rollback`. -/
def runSteps (envOk : String → Bool) (envErr : String → String) : List Step → StepsOut
  | [] => ⟨[], true, none⟩
  | s :: rest =>
    if s.command == "" then runSteps envOk envErr rest
    else if envOk s.command then
      let o := runSteps envOk envErr rest
      ⟨⟨CmdKind.step, s.command⟩ :: o.ran, o.success, o.error⟩
    else
      ⟨[⟨CmdKind.step, s.command⟩], false,
        some ("Step " ++ toString s.stepNum ++ " failed: " ++ envErr s.command)⟩

/-- `Executor.execute`.  Phases in source order: rate limit, safety scan,
prechecks, steps (with `_rollback` once on the first failure), postchecks
(only when all steps succeeded, never flipping success), and the final
journal append — which the three early `return` statements skip. -/
def execute (cfg : ExecCfg) (envOk : String → Bool) (envErr : String → String)
    (now : Nat) (hist : List Nat) (plan : Plan) : ExecOutcome :=
  let pruned := pruneHistory now hist
  if cfg.maxFixesPerHour ≤ pruned.length then
    ⟨false, some "Rate limit exceeded", [], 0, pruned⟩
  else
    match checkSafety cfg.neverRestart plan.steps with
    | some reason => ⟨false, some ("Safety check failed: " ++ reason), [], 0, pruned⟩
    | none =>
      match runPrechecks envOk plan.prechecks with
      | (ranP, some c) => ⟨false, some ("Precheck failed: " ++ c), ranP, 0, pruned⟩
      | (ranP, none) =>
        let so := runSteps envOk envErr plan.steps
        if so.success then
          ⟨true, none,
            ranP ++ so.ran ++ plan.postchecks.map (fun c => ⟨CmdKind.postcheck, c⟩),
            0, pruned ++ [now]⟩
        else
          ⟨false, so.error, ranP ++ so.ran, 1, pruned ++ [now]⟩

/-- Predicate used to state the corrected journal claim: `execute` reaches
the step phase exactly when the rate limit, the safety scan and every
precheck pass. -/
def passesGates (cfg : ExecCfg) (envOk : String → Bool) (now : Nat)
    (hist : List Nat) (plan : Plan) : Bool :=
  decide ((pruneHistory now hist).length < cfg.maxFixesPerHour)
    && (checkSafety cfg.neverRestart plan.steps).isNone
    && plan.prechecks.all envOk

/-! ## Alert deduplication (src/dedup.py) -/

/-- The stored per-fingerprint record (`first_seen`, `last_seen`, `count`,
`suppressed_until`).  A `suppressed_until` value that is corrupt or
unparsable as a date is `none`. -/
structure AlertRecord where
  firstSeen : Nat
  lastSeen : Nat
  count : Nat
  suppressedUntil : Option Nat
deriving Repr, DecidableEq

/-- The `seen_alerts` map of the deduplicator state, as an association list
keyed by fingerprint. -/
abbrev DedupState := List (String × AlertRecord)

/-- Write a record under a fingerprint key, replacing an existing entry. -/
def setRecord (st : DedupState) (fp : String) (r : AlertRecord) : DedupState :=
  match st with
  | [] => [(fp, r)]
  | (k, v) :: rest => if k == fp then (fp, r) :: rest else (k, v) :: setRecord rest fp r

/-- `AlertDeduplicator.should_alert`, keyed directly by fingerprint.
`suppressSecs` is `suppress_hours` in seconds.  An unseen key alerts and
opens the window; otherwise `count` and `last_seen` are updated, a corrupt
stored deadline parses to `now`, and the alert fires only when
`now > suppressed_until` (strict), sliding the window forward on that path. -/
def shouldAlert (suppressSecs : Nat) (st : DedupState) (fp : String) (now : Nat) :
    Bool × DedupState :=
  match st.lookup fp with
  | none => (true, setRecord st fp ⟨now, now, 1, some (now + suppressSecs)⟩)
  | some r =>
    let r1 : AlertRecord := ⟨r.firstSeen, now, r.count + 1, r.suppressedUntil⟩
    let su : Nat :=
      match r1.suppressedUntil with
      | some t => t
      | none => now
    if su < now then
      (true, setRecord st fp ⟨r1.firstSeen, r1.lastSeen, r1.count, some (now + suppressSecs)⟩)
    else
      (false, setRecord st fp r1)

/-- An issue dict as the deduplicator and the staleness check read it: every
field is optional (`none` models a missing key). -/
structure Issue where
  source : Option String
  type : Option String
  message : Option String
  container : Option String
  mount : Option String
  service : Option String
  unit : Option String
  path : Option String
  name : Option String
deriving Repr, DecidableEq

/-- Python `a or b` over optional strings: `None` and the empty string are
both falsy. -/
def pyOr (a b : Option String) : Option String :=
  match a with
  | some s => if s == "" then b else some s
  | none => b

/-- Close a Python falsy-chain with the final string default. -/
def pyOrD (a : Option String) (d : String) : String :=
  match a with
  | some s => if s == "" then d else s
  | none => d

/-- Identifier sanitisation of `fingerprint`: replace `:` and `/` by `_`. -/
def sanitizeIdent (s : String) : String :=
  ⟨s.data.map (fun c => if c == ':' || c == '/' then '_' else c)⟩

/-- `AlertDeduplicator.fingerprint`: `source:type:identifier` with the
identifier taken as the first truthy field among container, mount, service,
unit, path, name. -/
def fingerprint (i : Issue) : String :=
  let source := i.source.getD "unknown"
  let itype := i.type.getD "unknown"
  let ident :=
    pyOrD (pyOr i.container (pyOr i.mount (pyOr i.service
      (pyOr i.unit (pyOr i.path i.name))))) "unknown"
  source ++ ":" ++ itype ++ ":" ++ sanitizeIdent ident

/-- `should_alert` on an issue, going through `fingerprint` as the source does. -/
def shouldAlertIssue (suppressSecs : Nat) (st : DedupState) (i : Issue) (now : Nat) :
    Bool × DedupState :=
  shouldAlert suppressSecs st (fingerprint i) now

/-- Fold a sequence of observation times of one issue through `should_alert`,
collecting the returned booleans and the final state. -/
def runIssueSeq (suppressSecs : Nat) (i : Issue) : List Nat → DedupState → List Bool × DedupState
  | [], st => ([], st)
  | t :: rest, st =>
    let o := shouldAlertIssue suppressSecs st i t
    let o2 := runIssueSeq suppressSecs i rest o.2
    (o.1 :: o2.1, o2.2)

/-! ## Plan store operations (src/agent.py) -/

/-- The persisted plan state: `plans_dir` (active) and `history_dir`
(archive), each a list of plan files. -/
structure Store where
  active : List Plan
  archive : List Plan
deriving Repr, DecidableEq

/-- Look a plan file up by id inside one directory. -/
def findPlanIn (l : List Plan) (pid : String) : Option Plan :=
  l.find? (fun p => p.planId == pid)

/-- `SREAgent.approve_plan`: if the file exists in `plans_dir`, set
`status=approved` and `approved_at` and report success — the current status
is never inspected. -/
def approvePlan (s : Store) (pid : String) (now : Nat) : Store × Bool :=
  match findPlanIn s.active pid with
  | none => (s, false)
  | some p =>
    let p1 := { p with status := "approved", approvedAt := some now }
    ({ s with active := s.active.map (fun q => if q.planId == pid then p1 else q) }, true)

/-- Overwrite-or-create a plan file in the history directory. -/
def upsertArchive (l : List Plan) (p : Plan) : List Plan :=
  l.filter (fun q => q.planId != p.planId) ++ [p]

/-- `SREAgent.reject_plan`: if the file exists in `plans_dir`, set
`status=rejected`, record the reason, write it to `history_dir` and unlink
the active file — again without inspecting the current status. -/
def rejectPlan (s : Store) (pid : String) (reason : String) (now : Nat) : Store × Bool :=
  match findPlanIn s.active pid with
  | none => (s, false)
  | some p =>
    let p1 := { p with status := "rejected", rejectedAt := some now,
                       rejectionReason := some reason }
    (⟨s.active.filter (fun q => q.planId != pid), upsertArchive s.archive p1⟩, true)

/-- Ordering used by `list_plans`: newest `created_at` first. -/
def newestFirst (a b : Plan) : Prop := b.createdAt ≤ a.createdAt

instance : DecidableRel newestFirst := fun a b => Nat.decLe b.createdAt a.createdAt

instance : IsTotal Plan newestFirst := ⟨fun a b => Nat.le_total b.createdAt a.createdAt⟩

instance : IsTrans Plan newestFirst := ⟨fun _ _ _ h1 h2 => Nat.le_trans h2 h1⟩

/-- `SREAgent.list_plans`: scan `plans_dir` when the filter is `pending` and
`history_dir` for every other filter, keep plans whose status matches (all of
them for `all`), and sort newest-created first (stable, like Python sorted
with `reverse=True`). -/
def listPlans (s : Store) (status : String) : List Plan :=
  let dir := if status == "pending" then s.active else s.archive
  List.insertionSort newestFirst (dir.filter (fun p => status == "all" || p.status == status))

/-- `SREAgent.check_approvals`: the active plans with status `approved`. -/
def checkApprovals (s : Store) : List Plan :=
  s.active.filter (fun p => p.status == "approved")

/-- `SREAgent.execute_plan`: run the executor, mark the plan `completed` or
`failed`, write it to history and unlink the active file. -/
def executePlanAgent (cfg : ExecCfg) (envOk : String → Bool) (envErr : String → String)
    (hist : List Nat) (s : Store) (p : Plan) (now : Nat) : Store × ExecOutcome :=
  let res := execute cfg envOk envErr now hist p
  let p1 := { p with status := if res.success then "completed" else "failed",
                     executedAt := some now }
  (⟨s.active.filter (fun q => q.planId != p.planId), upsertArchive s.archive p1⟩, res)

/-! ## Staleness revalidation and the approve handler (src/agent.py) -/

/-- Inner loop body of `_validate_issue_persists` for one original evidence
string: some current issue matches by type substring or by one of the first
five words (longer than three characters) of the lowered evidence occurring
in the lowered current message. -/
def evidenceMatches (currentIssues : List Issue) (orig : String) : Bool :=
  let origLower := strLower orig
  currentIssues.any (fun cur =>
    strContains origLower (strLower (cur.type.getD "")) ||
    ((pyWords origLower).take 5).any (fun w =>
      3 < w.data.length && strContains (strLower (cur.message.getD "")) w))

/-- `SREAgent._validate_issue_persists` (pure core): no current issues means
resolved; a plan without recorded evidence is assumed to persist; otherwise
any type or keyword overlap means the issue persists. -/
def validateIssuePersists (currentIssues : List Issue) (planEvidence : List String) : Bool :=
  if currentIssues.isEmpty then false
  else if planEvidence.isEmpty then true
  else planEvidence.any (evidenceMatches currentIssues)

/-- Overlap between fresh issues and the original plan evidence exactly as
the claims phrase it: some evidence string matches some current issue by
type or keyword. -/
def evidenceOverlap (currentIssues : List Issue) (planEvidence : List String) : Bool :=
  planEvidence.any (evidenceMatches currentIssues)

/-- Plan-id resolution of `_handle_signal_approve`: exact id, id prefix, or
substring of the id. -/
def matchesArg (p : Plan) (arg : String) : Bool :=
  p.planId == arg || strStarts p.planId arg || strContains p.planId arg

/-- What the approve handler reports back. -/
inductive ApproveReply where
  | noPending
  | notFound
  | autoRejected (pid : String)
  | executed (pid : String) (success : Bool)
  | approveFailed (pid : String)
deriving Repr, DecidableEq

/-- Tail of `_handle_signal_approve` once a target plan is chosen and kept:
approve it and immediately run it through `execute_plan`. -/
def approveAndRun (cfg : ExecCfg) (envOk : String → Bool) (envErr : String → String)
    (hist : List Nat) (s : Store) (target : Plan) (now : Nat) :
    Store × List RanCmd × ApproveReply :=
  let o := approvePlan s target.planId now
  if o.2 then
    let r := executePlanAgent cfg envOk envErr hist o.1 target now
    (r.1, r.2.ran, ApproveReply.executed target.planId r.2.success)
  else (o.1, [], ApproveReply.approveFailed target.planId)

/-- `SREAgent._handle_signal_approve`: resolve the target among pending
plans (most recent when no id is given), reject it as resolved when it is
older than 300 seconds and `_validate_issue_persists` fails, and otherwise
approve and execute it.  The second component lists every command the
executor ran on behalf of this handler call. -/
def handleSignalApprove (cfg : ExecCfg) (envOk : String → Bool) (envErr : String → String)
    (hist : List Nat) (s : Store) (now : Nat) (currentIssues : List Issue)
    (pidArg : Option String) : Store × List RanCmd × ApproveReply :=
  match listPlans s "pending" with
  | [] => (s, [], ApproveReply.noPending)
  | p0 :: rest =>
    let target? :=
      match pidArg with
      | some arg => (p0 :: rest).find? (fun p => matchesArg p arg)
      | none => some p0
    match target? with
    | none => (s, [], ApproveReply.notFound)
    | some target =>
      if 300 < now - target.createdAt then
        if validateIssuePersists currentIssues target.evidence then
          approveAndRun cfg envOk envErr hist s target now
        else
          let o := rejectPlan s target.planId "Issue resolved automatically" now
          (o.1, [], ApproveReply.autoRejected target.planId)
      else approveAndRun cfg envOk envErr hist s target now

/-! ## Concrete inputs used by witnesses and counterexamples -/

/-- Build a plan with empty optional fields. -/
def mkPlan (pid status : String) (created : Nat) (ev pre : List String)
    (st : List Step) (post roll : List String) : Plan :=
  ⟨pid, status, created, ev, pre, st, post, roll, none, none, none, none⟩

/-- Command oracle where every command succeeds. -/
def envAll : String → Bool := fun _ => true

/-- Error-text oracle returning a fixed message. -/
def errBoom : String → String := fun _ => "boom"

/-- Command oracle where exactly `cmd-b` fails. -/
def envB : String → Bool := fun c => c != "cmd-b"

/-- A plan whose single step is a recursive root deletion. -/
def planDanger : Plan :=
  mkPlan "d1" "approved" 0 [] ["echo pre"] [⟨1, "wipe", "rm -rf /", 60⟩] ["echo post"] []

/-- A plan with three steps of which the second fails under `envB`. -/
def planOFO : Plan :=
  mkPlan "p3" "approved" 0 [] ["pc1"]
    [⟨1, "a", "cmd-a", 60⟩, ⟨2, "b", "cmd-b", 60⟩, ⟨3, "c", "cmd-c", 60⟩] ["post1"] ["undo"]

/-- An approved plan sitting in the active directory. -/
def planApproved : Plan := mkPlan "p1" "approved" 10 [] [] [] [] []

/-- A pending plan sitting in the active directory. -/
def planPending : Plan := mkPlan "p2" "pending" 4 [] [] [] [] []

/-- A stale pending plan with no recorded evidence. -/
def planStale : Plan := mkPlan "stale1" "pending" 0 [] [] [⟨1, "fix", "echo ok", 60⟩] [] []

/-- A stale pending plan whose evidence mentions a disk issue. -/
def planStaleEv : Plan :=
  mkPlan "stale2" "pending" 0 ["disk full on root"] [] [⟨1, "fix", "echo ok", 60⟩] [] []

/-- A plan whose precheck carries a deny-listed pattern while its step is benign. -/
def planPre10 : Plan :=
  mkPlan "p10" "approved" 0 [] ["rm -rf /tmp-scratch"] [⟨1, "ok", "echo hi", 60⟩] [] []

/-- A fresh issue unrelated to disk evidence. -/
def issueX : Issue :=
  ⟨some "system", some "cpu_high", some "cpu is high", none, none, none, none, none, none⟩

/-- The deduplication scenario issue of the spec. -/
def webIssue : Issue :=
  ⟨some "docker", some "container_unhealthy", none, some "web1", none, none, none, none, none⟩

/-! ## Helper lemmas -/

/-- A command containing the root-deletion pattern is rejected by the
per-step safety check, whatever the protected-container list is. -/
theorem stepSafety_isSome_of_dangerous (nr : List String) (cmd : String)
    (h : strContains cmd "rm -rf /" = true) : ∃ r, stepSafety nr cmd = some r := by
  unfold stepSafety
  cases hfind : nr.find? (fun c =>
      strContains cmd c && (strContains cmd "restart" || strContains cmd "stop")) with
  | some c => exact ⟨_, rfl⟩
  | none =>
    cases hp : dangerousPatterns.find? (fun p => strContains cmd p) with
    | some p => exact ⟨_, rfl⟩
    | none =>
      have hall := List.find?_eq_none.mp hp "rm -rf /" (by decide)
      simp [h] at hall

/-- If some step of the list is rejected by the per-step check, the whole
safety scan rejects. -/
theorem checkSafety_isSome_of_mem (nr : List String) {steps : List Step} {s : Step} {r : String}
    (hmem : s ∈ steps) (h : stepSafety nr s.command = some r) :
    ∃ r2, checkSafety nr steps = some r2 := by
  induction steps with
  | nil => cases hmem
  | cons a rest ih =>
    cases hh : stepSafety nr a.command with
    | some r2 => exact ⟨r2, by simp [checkSafety, hh]⟩
    | none =>
      rcases List.mem_cons.mp hmem with heq | hmem2
      · subst heq; rw [h] at hh; cases hh
      · obtain ⟨r2, h2⟩ := ih hmem2
        exact ⟨r2, by simp [checkSafety, hh, h2]⟩

/-- If no step is rejected by the per-step check, the safety scan passes. -/
theorem checkSafety_eq_none_of_all (nr : List String) (steps : List Step)
    (h : ∀ s ∈ steps, stepSafety nr s.command = none) :
    checkSafety nr steps = none := by
  induction steps with
  | nil => rfl
  | cons a rest ih =>
    have ha := h a (List.mem_cons_self a rest)
    simp [checkSafety, ha, ih (fun s hs => h s (List.mem_cons_of_mem a hs))]

/-- When every precheck passes, the precheck loop runs them all and reports
no failure. -/
theorem runPrechecks_all_pass (envOk : String → Bool) (l : List String)
    (h : ∀ c ∈ l, envOk c = true) :
    runPrechecks envOk l = (l.map (fun c => ⟨CmdKind.precheck, c⟩), none) := by
  induction l with
  | nil => rfl
  | cons c rest ih =>
    have hc := h c (List.mem_cons_self c rest)
    simp [runPrechecks, hc, ih (fun x hx => h x (List.mem_cons_of_mem c hx))]

/-- The precheck loop reports no failure exactly when every precheck passes. -/
theorem runPrechecks_none_iff (envOk : String → Bool) (l : List String) :
    (runPrechecks envOk l).2 = none ↔ l.all envOk = true := by
  induction l with
  | nil => simp [runPrechecks]
  | cons c rest ih =>
    by_cases hc : envOk c = true
    · simp [runPrechecks, hc, ih]
    · simp [runPrechecks, hc]

/-- The first precheck of a non-empty list is always run. -/
theorem runPrechecks_head (envOk : String → Bool) (c : String) (rest : List String) :
    ∃ tl, (runPrechecks envOk (c :: rest)).1 = ⟨CmdKind.precheck, c⟩ :: tl := by
  by_cases h : envOk c = true
  · exact ⟨(runPrechecks envOk rest).1, by simp [runPrechecks, h]⟩
  · exact ⟨[], by simp [runPrechecks, h]⟩

/-- The step loop on a list whose first failing command sits after `pre`:
the commands of `pre` and the failing command run, nothing else, and the
error message names the failing step number. -/
theorem runSteps_first_fail (envOk : String → Bool) (envErr : String → String)
    (pre post : List Step) (f : Step)
    (hok : ∀ s ∈ pre, s.command ≠ "" ∧ envOk s.command = true)
    (hfcmd : f.command ≠ "") (hfail : envOk f.command = false) :
    runSteps envOk envErr (pre ++ f :: post)
      = ⟨(pre ++ [f]).map (fun s => ⟨CmdKind.step, s.command⟩), false,
         some ("Step " ++ toString f.stepNum ++ " failed: " ++ envErr f.command)⟩ := by
  induction pre with
  | nil =>
    simp [runSteps, hfail, beq_eq_false_iff_ne.mpr hfcmd]
  | cons a pre ih =>
    obtain ⟨ha1, ha2⟩ := hok a (List.mem_cons_self a pre)
    simp [runSteps, beq_eq_false_iff_ne.mpr ha1, ha2,
      ih (fun s hs => hok s (List.mem_cons_of_mem a hs))]

/-- Updating the one matching plan file keeps it findable and updated. -/
theorem findPlanIn_map_set (l : List Plan) (pid : String) (p1 : Plan)
    (hp1 : (p1.planId == pid) = true) (hs : (findPlanIn l pid).isSome = true) :
    findPlanIn (l.map (fun q => if q.planId == pid then p1 else q)) pid = some p1 := by
  induction l with
  | nil => simp [findPlanIn] at hs
  | cons a rest ih =>
    rw [List.map_cons]
    by_cases ha : (a.planId == pid) = true
    · rw [findPlanIn, if_pos ha, List.find?_cons_of_pos (p := fun (q : Plan) => q.planId == pid) _ hp1]
    · rw [findPlanIn, if_neg ha, List.find?_cons_of_neg (p := fun (q : Plan) => q.planId == pid) _ ha]
      have hs2 : (findPlanIn rest pid).isSome = true := by
        rw [findPlanIn, List.find?_cons_of_neg (p := fun (q : Plan) => q.planId == pid) _ ha] at hs
        exact hs
      exact ih hs2

/-- A plan written to the history directory is findable there under its id. -/
theorem findPlanIn_upsert (l : List Plan) (p1 : Plan) (pid : String)
    (hp1 : (p1.planId == pid) = true) :
    findPlanIn (upsertArchive l p1) pid = some p1 := by
  unfold findPlanIn upsertArchive
  rw [List.find?_append]
  have h1 : List.find? (fun q => q.planId == pid)
      (l.filter (fun q => q.planId != p1.planId)) = none := by
    rw [List.find?_eq_none]
    intro q hq hqe
    have hne := bne_iff_ne.mp (List.mem_filter.mp hq).2
    exact hne (beq_iff_eq.mp hqe |>.trans (beq_iff_eq.mp hp1).symm)
  simp [h1, hp1]

/-- After filtering a plan id out of a directory, it is no longer found. -/
theorem findPlanIn_filter_ne (l : List Plan) (pid : String) :
    findPlanIn (l.filter (fun q => q.planId != pid)) pid = none := by
  rw [findPlanIn, List.find?_eq_none]
  intro q hq hqe
  exact bne_iff_ne.mp (List.mem_filter.mp hq).2 (beq_iff_eq.mp hqe)

/-! ## Claim theorems -/

/-- C1: for every plan in which some step command contains the deny-listed
pattern `rm -rf /`, when the rate limit has not been reached, `execute` runs
zero commands (no prechecks, no steps) and returns a result with
`success = false` whose error is a safety-violation message naming a reason. -/
theorem C1_safety_blocks_all (cfg : ExecCfg) (envOk : String → Bool) (envErr : String → String)
    (now : Nat) (hist : List Nat) (plan : Plan)
    (hrate : (pruneHistory now hist).length < cfg.maxFixesPerHour)
    (hstep : ∃ s ∈ plan.steps, strContains s.command "rm -rf /" = true) :
    (execute cfg envOk envErr now hist plan).success = false
    ∧ (execute cfg envOk envErr now hist plan).ran = []
    ∧ ∃ r, (execute cfg envOk envErr now hist plan).error
        = some ("Safety check failed: " ++ r) := by
  obtain ⟨s, hmem, hc⟩ := hstep
  obtain ⟨r, hr⟩ := stepSafety_isSome_of_dangerous cfg.neverRestart s.command hc
  obtain ⟨r2, hcs⟩ := checkSafety_isSome_of_mem cfg.neverRestart hmem hr
  have hlt : ¬ (cfg.maxFixesPerHour ≤ (pruneHistory now hist).length) := Nat.not_le.mpr hrate
  refine ⟨?_, ?_, ⟨r2, ?_⟩⟩ <;> simp [execute, hcs, hlt]

/-- C1 witness: a concrete plan whose single step is `rm -rf /`. -/
theorem C1_witness :
    (pruneHistory 0 []).length < 3
    ∧ ((execute ⟨3, []⟩ envAll errBoom 0 [] planDanger).success = false
       ∧ (execute ⟨3, []⟩ envAll errBoom 0 [] planDanger).ran = []
       ∧ ∃ r, (execute ⟨3, []⟩ envAll errBoom 0 [] planDanger).error
           = some ("Safety check failed: " ++ r)) :=
  ⟨by decide,
   C1_safety_blocks_all ⟨3, []⟩ envAll errBoom 0 [] planDanger (by decide)
     ⟨⟨1, "wipe", "rm -rf /", 60⟩, by decide, by decide⟩⟩

/-- C2: when the journal already holds at least the configured ceiling of
entries inside the trailing hour, `execute` returns the rate-limited failure,
runs zero commands, never invokes rollback, and appends nothing to the
journal (the only state change is the pruning of expired entries). -/
theorem C2_rate_limited (cfg : ExecCfg) (envOk : String → Bool) (envErr : String → String)
    (now : Nat) (hist : List Nat) (plan : Plan)
    (h : cfg.maxFixesPerHour ≤ (pruneHistory now hist).length) :
    execute cfg envOk envErr now hist plan
      = ⟨false, some "Rate limit exceeded", [], 0, pruneHistory now hist⟩ := by
  simp [execute, h]

/-- C2 witness: three in-window journal entries against the default ceiling. -/
theorem C2_witness :
    (3 : Nat) ≤ (pruneHistory 5 [1, 2, 3]).length
    ∧ execute ⟨3, []⟩ envAll errBoom 5 [1, 2, 3] planOFO
        = ⟨false, some "Rate limit exceeded", [], 0, [1, 2, 3]⟩ := by
  refine ⟨by decide, ?_⟩
  rw [C2_rate_limited ⟨3, []⟩ envAll errBoom 5 [1, 2, 3] planOFO (by decide)]
  decide

/-- C3: when gates and prechecks pass and the first failing step sits at
position `k = pre.length + 1`, `execute` runs exactly the prechecks and the
step commands up to and including position `k`, runs no later step and no
postcheck, invokes rollback exactly once, and fails with an error naming
step `k`. -/
theorem C3_first_failure (cfg : ExecCfg) (envOk : String → Bool) (envErr : String → String)
    (now : Nat) (hist : List Nat) (plan : Plan) (pre post : List Step) (f : Step)
    (hrate : (pruneHistory now hist).length < cfg.maxFixesPerHour)
    (hsafe : checkSafety cfg.neverRestart plan.steps = none)
    (hpre : ∀ c ∈ plan.prechecks, envOk c = true)
    (hsplit : plan.steps = pre ++ f :: post)
    (hok : ∀ s ∈ pre, s.command ≠ "" ∧ envOk s.command = true)
    (hfcmd : f.command ≠ "") (hfail : envOk f.command = false)
    (hnum : f.stepNum = pre.length + 1) :
    execute cfg envOk envErr now hist plan
      = ⟨false,
         some ("Step " ++ toString (pre.length + 1) ++ " failed: " ++ envErr f.command),
         plan.prechecks.map (fun c => ⟨CmdKind.precheck, c⟩)
           ++ (pre ++ [f]).map (fun s => ⟨CmdKind.step, s.command⟩),
         1, pruneHistory now hist ++ [now]⟩ := by
  have hP := runPrechecks_all_pass envOk plan.prechecks hpre
  have hS : runSteps envOk envErr plan.steps
      = ⟨(pre ++ [f]).map (fun s => ⟨CmdKind.step, s.command⟩), false,
         some ("Step " ++ toString f.stepNum ++ " failed: " ++ envErr f.command)⟩ := by
    rw [hsplit]
    exact runSteps_first_fail envOk envErr pre post f hok hfcmd hfail
  have hlt : ¬ (cfg.maxFixesPerHour ≤ (pruneHistory now hist).length) := Nat.not_le.mpr hrate
  simp [execute, hlt, hsafe, hP, hS, hnum]

/-- C3 witness: a plan with steps ok, fail, ok under `envB`. -/
theorem C3_witness :
    execute ⟨3, []⟩ envB errBoom 9 [] planOFO
      = ⟨false, some "Step 2 failed: boom",
         [⟨CmdKind.precheck, "pc1"⟩, ⟨CmdKind.step, "cmd-a"⟩, ⟨CmdKind.step, "cmd-b"⟩],
         1, [9]⟩ := by
  rw [C3_first_failure ⟨3, []⟩ envB errBoom 9 [] planOFO
      [⟨1, "a", "cmd-a", 60⟩] [⟨3, "c", "cmd-c", 60⟩] ⟨2, "b", "cmd-b", 60⟩
      (by decide) (by decide) (by decide) (by decide) (by decide) (by decide) (by decide)
      (by decide)]
  decide

/-- C7 counterexample: a rate-limited invocation of `execute` leaves the
journal untouched, so not every invocation appends a timestamp. -/
theorem C7_counterexample :
    (execute ⟨3, []⟩ envAll errBoom 5 [1, 2, 3] planOFO).historyAfter = [1, 2, 3]
    ∧ ¬ (execute ⟨3, []⟩ envAll errBoom 5 [1, 2, 3] planOFO).historyAfter.length
        = ([1, 2, 3] : List Nat).length + 1 := by
  decide

/-- C7 amended: `execute` appends exactly one timestamp to the journal when
it passes the rate-limit, safety and precheck gates and reaches the step
phase; the early returns (rate limited, safety violation, precheck failure)
append nothing, leaving only the pruning of expired entries. -/
theorem C7_journal_append (cfg : ExecCfg) (envOk : String → Bool) (envErr : String → String)
    (now : Nat) (hist : List Nat) (plan : Plan) :
    (execute cfg envOk envErr now hist plan).historyAfter
      = pruneHistory now hist
          ++ (if passesGates cfg envOk now hist plan then [now] else []) := by
  by_cases hr : cfg.maxFixesPerHour ≤ (pruneHistory now hist).length
  · simp [execute, hr, passesGates, Nat.not_lt.mpr hr]
  · cases hcs : checkSafety cfg.neverRestart plan.steps with
    | some r => simp [execute, hr, hcs, passesGates]
    | none =>
      rcases hpc : runPrechecks envOk plan.prechecks with ⟨ranP, f?⟩
      cases f? with
      | some c =>
        have hall : plan.prechecks.all envOk = false := by
          have h2 := runPrechecks_none_iff envOk plan.prechecks
          rw [hpc] at h2
          exact Bool.eq_false_iff.mpr (fun hx => Option.noConfusion (h2.mpr hx))
        simp [execute, hr, hcs, hpc, passesGates, hall]
      | none =>
        have hall : plan.prechecks.all envOk = true := by
          have h2 := runPrechecks_none_iff envOk plan.prechecks
          rw [hpc] at h2
          simpa using h2
        have hlt : (pruneHistory now hist).length < cfg.maxFixesPerHour := Nat.lt_of_not_le hr
        by_cases hss : (runSteps envOk envErr plan.steps).success = true
        · simp [execute, hr, hcs, hpc, passesGates, hall, hss, hlt]
        · simp [execute, hr, hcs, hpc, passesGates, hall, hss, hlt]

/-- C4 counterexample: approving an already-approved active plan reports
success and rewrites the plan file, instead of reporting an invalid
transition and leaving the plan unchanged. -/
theorem C4_counterexample :
    planApproved.status = "approved"
    ∧ (approvePlan ⟨[planApproved], []⟩ "p1" 7).2 = true
    ∧ (approvePlan ⟨[planApproved], []⟩ "p1" 7).1.active
        = [{ planApproved with approvedAt := some 7 }] := by
  decide

/-- C4 amended: `approve_plan` and `reject_plan` report failure on a plan id
absent from the active directory and leave the store unchanged (so archived
terminal plans are never modified); on any active plan, whatever its current
status, `approve_plan` reports success and sets `status = approved`, and
`reject_plan` reports success, archives the plan as `rejected` with the
reason, and removes it from the active directory; `approve_plan` never
touches the archive. -/
theorem C4_transition_behavior (s : Store) (pid : String) (now : Nat) (reason : String) :
    (findPlanIn s.active pid = none →
      approvePlan s pid now = (s, false) ∧ rejectPlan s pid reason now = (s, false))
    ∧ (∀ p, findPlanIn s.active pid = some p →
        (approvePlan s pid now).2 = true
        ∧ findPlanIn (approvePlan s pid now).1.active pid
            = some { p with status := "approved", approvedAt := some now }
        ∧ (rejectPlan s pid reason now).2 = true
        ∧ findPlanIn (rejectPlan s pid reason now).1.archive pid
            = some { p with status := "rejected", rejectedAt := some now,
                            rejectionReason := some reason }
        ∧ findPlanIn (rejectPlan s pid reason now).1.active pid = none)
    ∧ (approvePlan s pid now).1.archive = s.archive := by
  refine ⟨?_, ?_, ?_⟩
  · intro h
    constructor
    · simp [approvePlan, h]
    · simp [rejectPlan, h]
  · intro p hp
    have hpid0 := List.find?_some
      (show List.find? (fun (q : Plan) => q.planId == pid) s.active = some p from hp)
    have hpid : (p.planId == pid) = true := hpid0
    refine ⟨by simp [approvePlan, hp], ?_, by simp [rejectPlan, hp], ?_, ?_⟩
    · have hs : (findPlanIn s.active pid).isSome = true := by rw [hp]; rfl
      have := findPlanIn_map_set s.active pid
        { p with status := "approved", approvedAt := some now } hpid hs
      simpa [approvePlan, hp] using this
    · have := findPlanIn_upsert s.archive
        { p with status := "rejected", rejectedAt := some now,
                 rejectionReason := some reason } pid hpid
      simpa [rejectPlan, hp] using this
    · have := findPlanIn_filter_ne s.active pid
      simpa [rejectPlan, hp] using this
  · cases h : findPlanIn s.active pid with
    | none => simp [approvePlan, h]
    | some p => simp [approvePlan, h]

/-- C4 witness: missing ids fail without change; a present pending plan is
approved, and rejecting it archives it with the reason. -/
theorem C4_witness :
    approvePlan ⟨[], []⟩ "zz" 1 = (⟨[], []⟩, false)
    ∧ (approvePlan ⟨[planPending], []⟩ "p2" 3).2 = true
    ∧ findPlanIn (rejectPlan ⟨[planPending], []⟩ "p2" "no" 3).1.archive "p2"
        = some { planPending with status := "rejected", rejectedAt := some 3,
                                  rejectionReason := some "no" } := by
  refine ⟨((C4_transition_behavior ⟨[], []⟩ "zz" 1 "r").1 (by decide)).1, ?_, ?_⟩
  · exact ((C4_transition_behavior ⟨[planPending], []⟩ "p2" 3 "no").2.1 planPending
      (by decide)).1
  · exact ((C4_transition_behavior ⟨[planPending], []⟩ "p2" 3 "no").2.1 planPending
      (by decide)).2.2.2.1

/-- C9 counterexample: an approved plan in the active directory is returned
by `check_approvals` but listing with filter `approved` returns nothing,
because `list_plans` scans the history directory for every non-pending
filter. -/
theorem C9_counterexample :
    checkApprovals ⟨[planApproved], []⟩ = [planApproved]
    ∧ listPlans ⟨[planApproved], []⟩ "approved" = [] := by
  decide

/-- C9 amended: `list_plans` scans the active directory only for the
`pending` filter and the archive for every other filter; within the scanned
directory it returns exactly the plans whose status matches (all of them for
`all`), ordered newest-created first; active approved plans are returned by
`check_approvals` instead. -/
theorem C9_list_behavior (s : Store) (status : String) (p : Plan) :
    (p ∈ listPlans s status ↔
      p ∈ (if status == "pending" then s.active else s.archive)
        ∧ (status == "all" || p.status == status) = true)
    ∧ (listPlans s status).Sorted newestFirst := by
  unfold listPlans
  exact ⟨((List.perm_insertionSort newestFirst _).mem_iff).trans List.mem_filter,
    List.sorted_insertionSort newestFirst _⟩

/-- C5 counterexample: a ten-minute-old pending plan with an empty evidence
list and a fresh unrelated issue has no type or keyword overlap, yet the
approve handler executes its command instead of auto-rejecting it, because
`_validate_issue_persists` assumes persistence when the plan records no
evidence. -/
theorem C5_counterexample :
    planStale.status = "pending"
    ∧ 300 < 1000 - planStale.createdAt
    ∧ evidenceOverlap [issueX] planStale.evidence = false
    ∧ (handleSignalApprove ⟨3, []⟩ envAll errBoom [] ⟨[planStale], []⟩ 1000 [issueX]
        (some "stale1")).2.1 = [⟨CmdKind.step, "echo ok"⟩]
    ∧ (handleSignalApprove ⟨3, []⟩ envAll errBoom [] ⟨[planStale], []⟩ 1000 [issueX]
        (some "stale1")).2.2 = ApproveReply.executed "stale1" true := by
  decide

/-- C5 amended: on an approve command that resolves to a stale pending plan
(older than 300 seconds) whose recorded evidence is non-empty, if the fresh
issues have no type or keyword overlap with that evidence, the handler runs
zero commands and archives the plan as rejected with the resolved reason. -/
theorem C5_stale_resolved (cfg : ExecCfg) (envOk : String → Bool) (envErr : String → String)
    (hist : List Nat) (s : Store) (now : Nat) (issues : List Issue) (p : Plan) (arg : String)
    (hres : (listPlans s "pending").find? (fun q => matchesArg q arg) = some p)
    (hact : findPlanIn s.active p.planId = some p)
    (hstale : 300 < now - p.createdAt)
    (hev : p.evidence ≠ [])
    (hnoov : evidenceOverlap issues p.evidence = false) :
    (handleSignalApprove cfg envOk envErr hist s now issues (some arg)).2.1 = []
    ∧ (handleSignalApprove cfg envOk envErr hist s now issues (some arg)).2.2
        = ApproveReply.autoRejected p.planId
    ∧ findPlanIn (handleSignalApprove cfg envOk envErr hist s now issues (some arg)).1.archive
        p.planId
      = some { p with status := "rejected", rejectedAt := some now,
                      rejectionReason := some "Issue resolved automatically" } := by
  have hval : validateIssuePersists issues p.evidence = false := by
    unfold validateIssuePersists
    by_cases hi : issues.isEmpty = true
    · simp [hi]
    · have hpe : p.evidence.isEmpty = false :=
        Bool.eq_false_iff.mpr (fun hx => hev (List.isEmpty_iff.mp hx))
      unfold evidenceOverlap at hnoov
      simp [hi, hpe, hnoov]
  cases hl : listPlans s "pending" with
  | nil => rw [hl] at hres; simp at hres
  | cons p0 rest =>
    have hres2 : (p0 :: rest).find? (fun q => matchesArg q arg) = some p := by
      rw [← hl]; exact hres
    have harch : findPlanIn (rejectPlan s p.planId "Issue resolved automatically" now).1.archive
        p.planId
        = some { p with status := "rejected", rejectedAt := some now,
                        rejectionReason := some "Issue resolved automatically" } := by
      have := findPlanIn_upsert s.archive
        { p with status := "rejected", rejectedAt := some now,
                 rejectionReason := some "Issue resolved automatically" } p.planId
        (by simp)
      simpa [rejectPlan, hact] using this
    refine ⟨?_, ?_, ?_⟩ <;>
      simp [handleSignalApprove, hl, hres2, hstale, hval, harch]

/-- C5 witness: a stale pending plan with disk evidence against a fresh
unrelated cpu issue is auto-rejected without running its command. -/
theorem C5_witness :
    (handleSignalApprove ⟨3, []⟩ envAll errBoom [] ⟨[planStaleEv], []⟩ 1000 [issueX]
      (some "stale2")).2.1 = []
    ∧ (handleSignalApprove ⟨3, []⟩ envAll errBoom [] ⟨[planStaleEv], []⟩ 1000 [issueX]
        (some "stale2")).2.2 = ApproveReply.autoRejected "stale2"
    ∧ findPlanIn (handleSignalApprove ⟨3, []⟩ envAll errBoom [] ⟨[planStaleEv], []⟩ 1000
        [issueX] (some "stale2")).1.archive "stale2"
      = some { planStaleEv with status := "rejected", rejectedAt := some 1000,
                                rejectionReason := some "Issue resolved automatically" } :=
  C5_stale_resolved ⟨3, []⟩ envAll errBoom [] ⟨[planStaleEv], []⟩ 1000 [issueX] planStaleEv
    "stale2" (by decide) (by decide) (by decide) (by decide) (by decide)

/-- C6: per fingerprint, the first call alerts and opens the window at
`now + suppressSecs`; any later call at a time not after the stored deadline
is suppressed, incrementing the count and updating `last_seen` while keeping
the deadline; any later call strictly after the deadline re-alerts and
slides the deadline to `now + suppressSecs`; the spec scenario (three
observations within one hour, two-hour window) raises exactly one alert and
stores a count of three. -/
theorem C6_suppression_window (suppressSecs : Nat) (st : DedupState) (fp : String) (now : Nat) :
    (st.lookup fp = none →
      shouldAlert suppressSecs st fp now
        = (true, setRecord st fp ⟨now, now, 1, some (now + suppressSecs)⟩))
    ∧ (∀ r t, st.lookup fp = some r → r.suppressedUntil = some t →
        (now ≤ t →
          shouldAlert suppressSecs st fp now
            = (false, setRecord st fp ⟨r.firstSeen, now, r.count + 1, some t⟩))
        ∧ (t < now →
          shouldAlert suppressSecs st fp now
            = (true, setRecord st fp ⟨r.firstSeen, now, r.count + 1,
                some (now + suppressSecs)⟩)))
    ∧ ((runIssueSeq 7200 webIssue [0, 1200, 2400] []).1 = [true, false, false]
       ∧ (runIssueSeq 7200 webIssue [0, 1200, 2400] []).2.lookup
           "docker:container_unhealthy:web1" = some ⟨0, 2400, 3, some 7200⟩) := by
  refine ⟨?_, ?_, by decide⟩
  · intro h
    simp [shouldAlert, h]
  · intro r t hr ht
    constructor
    · intro hle
      simp [shouldAlert, hr, ht, Nat.not_lt.mpr hle]
    · intro hlt
      simp [shouldAlert, hr, ht, hlt]

/-- C6 witness: the three regimes at concrete inputs. -/
theorem C6_witness :
    shouldAlert 3600 [] "fp1" 5 = (true, [("fp1", ⟨5, 5, 1, some 3605⟩)])
    ∧ shouldAlert 3600 [("fp1", ⟨5, 5, 1, some 3605⟩)] "fp1" 100
        = (false, [("fp1", ⟨5, 100, 2, some 3605⟩)])
    ∧ shouldAlert 3600 [("fp1", ⟨5, 100, 2, some 3605⟩)] "fp1" 4000
        = (true, [("fp1", ⟨5, 4000, 3, some 7600⟩)]) := by
  refine ⟨?_, ?_, ?_⟩
  · exact (C6_suppression_window 3600 [] "fp1" 5).1 (by decide)
  · exact ((C6_suppression_window 3600 [("fp1", ⟨5, 5, 1, some 3605⟩)] "fp1" 100).2.1
      ⟨5, 5, 1, some 3605⟩ 3605 (by decide) (by decide)).1 (by decide)
  · exact ((C6_suppression_window 3600 [("fp1", ⟨5, 100, 2, some 3605⟩)] "fp1" 4000).2.1
      ⟨5, 100, 2, some 3605⟩ 3605 (by decide) (by decide)).2 (by decide)

/-- C8: a stored record whose `suppressed_until` is corrupt or unparsable
makes the next `should_alert` call return false, not true — the corrupt
deadline parses to `now` and the strict `now > suppressed_until` test fails,
contradicting the inline comment `Invalid date, allow alert` and the
documented fail-open behaviour. -/
theorem C8_corrupt_deadline_suppresses (suppressSecs : Nat) (st : DedupState) (fp : String)
    (now : Nat) (r : AlertRecord)
    (hr : st.lookup fp = some r) (hc : r.suppressedUntil = none) :
    (shouldAlert suppressSecs st fp now).1 = false := by
  simp [shouldAlert, hr, hc, Nat.lt_irrefl]

/-- C8 witness: a concrete corrupt record never re-alerts. -/
theorem C8_witness :
    (shouldAlert 7200 [("docker:container_unhealthy:web1", ⟨0, 0, 1, none⟩)]
      "docker:container_unhealthy:web1" 500).1 = false :=
  C8_corrupt_deadline_suppresses 7200
    [("docker:container_unhealthy:web1", ⟨0, 0, 1, none⟩)]
    "docker:container_unhealthy:web1" 500 ⟨0, 0, 1, none⟩ (by decide) (by decide)

/-- C10: the safety scan inspects only step commands — when every step
passes the per-step check, `_check_safety` accepts the plan even though a
precheck carries the deny-listed pattern `rm -rf /`, and (the rate limit
permitting) that precheck command is actually handed to `_run_command`. -/
theorem C10_scan_only_steps (cfg : ExecCfg) (envOk : String → Bool) (envErr : String → String)
    (now : Nat) (hist : List Nat) (plan : Plan) (c : String) (rest : List String)
    (hrate : (pruneHistory now hist).length < cfg.maxFixesPerHour)
    (hsteps : ∀ s ∈ plan.steps, stepSafety cfg.neverRestart s.command = none)
    (hpre : plan.prechecks = c :: rest)
    (hdanger : strContains c "rm -rf /" = true) :
    checkSafety cfg.neverRestart plan.steps = none
    ∧ ⟨CmdKind.precheck, c⟩ ∈ (execute cfg envOk envErr now hist plan).ran := by
  have hcs := checkSafety_eq_none_of_all cfg.neverRestart plan.steps hsteps
  refine ⟨hcs, ?_⟩
  have hnr : ¬ (cfg.maxFixesPerHour ≤ (pruneHistory now hist).length) := Nat.not_le.mpr hrate
  obtain ⟨tl, htl⟩ := runPrechecks_head envOk c rest
  rcases hrp : runPrechecks envOk (c :: rest) with ⟨ranP, f?⟩
  have hranP : ranP = ⟨CmdKind.precheck, c⟩ :: tl := by
    rw [hrp] at htl
    exact htl
  cases f? with
  | some x =>
    simp [execute, hnr, hcs, hpre, hrp, hranP]
  | none =>
    by_cases hss : (runSteps envOk envErr plan.steps).success = true
    · simp [execute, hnr, hcs, hpre, hrp, hranP, hss]
    · simp [execute, hnr, hcs, hpre, hrp, hranP, hss]

/-- C10 witness: a benign step with a deny-listed precheck command. -/
theorem C10_witness :
    checkSafety (ExecCfg.mk 3 []).neverRestart planPre10.steps = none
    ∧ ⟨CmdKind.precheck, "rm -rf /tmp-scratch"⟩
        ∈ (execute ⟨3, []⟩ envAll errBoom 0 [] planPre10).ran :=
  C10_scan_only_steps ⟨3, []⟩ envAll errBoom 0 [] planPre10 "rm -rf /tmp-scratch" []
    (by decide) (by decide) (by decide) (by decide)
